import Mathlib

/-!
Shallow embedding of the custom-protocol wire decoder of
src/agent/src/plugin/mod.rs and of the protocol identifier table
TapType of src/src/common/enums.rs, together with proofs of the
behavioural properties claimed for them.

Buffers are lists of bytes, modelled as natural numbers (the wire
guarantees values below 256; theorems add that hypothesis only where a
claim depends on it).  Strings are kept as their raw byte lists: the
UTF-8 decoding step of the string reader is abstracted away, no claim
depends on it.  A Rust slice-index panic is modelled by the explicit
outcome Step.oob.
-/

namespace Deepflow

/-- Traffic direction of the observed packet (common/flow.rs, outside
src/; only the two variants consumed by the decoder are modelled). -/
inductive PacketDirection where
  | clientToServer
  | serverToClient
deriving DecidableEq

/-- Modelled from the spec: the response status set recognized by the
decoder.  The type L7ResponseStatus lives in flow_generator/protocol_logs,
which is not under src/; the spec gives status in the set Ok, ClientError,
ServerError, and the record default is taken to be Ok. -/
inductive L7ResponseStatus where
  | ok
  | clientError
  | serverError
deriving DecidableEq

/-- Modelled from the spec: the message kind of a record (request,
response or session), set by caller context, never by the decoder; the
type LogMessageType lives outside src/.  An extra variant stands for the
default used by Self::default(). -/
inductive LogMessageType where
  | request
  | response
  | session
  | other
deriving DecidableEq

/-- A key and value attribute pair (KeyVal of pb_adapter, outside src/;
only its two string fields matter here). -/
structure KeyVal where
  key : List Nat
  val : List Nat
deriving DecidableEq

/-- The request side of a decoded record (CustomInfoRequest, lines 37-42
of mod.rs); Default gives four empty strings. -/
structure CustomInfoRequest where
  req_type : List Nat := []
  domain : List Nat := []
  resource : List Nat := []
  endpoint : List Nat := []
deriving DecidableEq

/-- The response side of a decoded record (CustomInfoResp, lines 45-50
of mod.rs). -/
structure CustomInfoResp where
  status : L7ResponseStatus := .ok
  code : Option Int := none
  exception : List Nat := []
  result : List Nat := []
deriving DecidableEq

/-- The trace fields of a decoded record (CustomInfoTrace, lines 53-57
of mod.rs), each independently optional. -/
structure CustomInfoTrace where
  trace_id : Option (List Nat) := none
  span_id : Option (List Nat) := none
  parent_span_id : Option (List Nat) := none
deriving DecidableEq

/-- The decoded record (CustomInfo, lines 60-81 of mod.rs); the field
defaults are the Rust Default derivation used by Self::default(). -/
structure CustomInfo where
  proto : Nat := 0
  proto_str : List Nat := []
  msg_type : LogMessageType := .other
  rrt : Nat := 0
  req_len : Option Nat := none
  resp_len : Option Nat := none
  request_id : Option Nat := none
  req : CustomInfoRequest := {}
  resp : CustomInfoResp := {}
  trace : CustomInfoTrace := {}
  attributes : List KeyVal := []
deriving DecidableEq

/-- The distinct Error::WasmSerializeFail messages returned by the
decoder, one constructor per return site of try_from (the spec's
TooShort, InvalidFlag and InvalidStatus taxonomy). -/
inductive DecodeError where
  | tooShortHeader
  | tooShortRequestId
  | invalidFlagRequestId
  | tooShortRequest
  | invalidStatus
  | tooShortCode
  | invalidFlagCode
  | tooShortResponse
  | tooShortTraceFlag
  | invalidFlagTrace
  | tooShortTrace
  | tooShortKvFlag
  | invalidFlagKv
deriving DecidableEq

/-- Outcome of a decoding step: oob marks the places where the Rust
source would panic with an out-of-bounds slice index, err an explicit
Error return, ok a successful value. -/
inductive Step (α : Type) where
  | oob
  | err (e : DecodeError)
  | ok (a : α)
deriving DecidableEq

/-- Sequencing of decoding steps; oob and err abort. -/
def Step.bind {α β : Type} : Step α → (α → Step β) → Step β
  | .oob, _ => .oob
  | .err e, _ => .err e
  | .ok a, f => f a

/-- Big-endian u32 read of the four bytes starting at off, as
public::bytes::read_u32_be over the slice of buf at off..off+4; none
when the slice would run past the end of the buffer (where the Rust
slice expression itself panics). -/
def readU32At (buf : List Nat) (off : Nat) : Option Nat :=
  match buf.get? off, buf.get? (off+1), buf.get? (off+2), buf.get? (off+3) with
  | some a, some b, some c, some d => some (((a * 256 + b) * 256 + c) * 256 + d)
  | _, _, _, _ => none

/-- Reinterpretation of an unsigned 32-bit value as a signed 32-bit
integer, the source cast of read_u32_be(..) as i32. -/
def u32AsI32 (w : Nat) : Int :=
  if w < 2 ^ 31 then (w : Int) else (w : Int) - 2 ^ 32

/-- Modelled from the spec: the StringFieldReader contract of
read_wasm_str (src/agent/src/plugin/wasm is not under src/).  Reads a
2-byte big-endian length at off and then that many payload bytes,
returning the payload as raw bytes together with the advanced cursor;
none when fewer than 2 bytes remain for the length or fewer than the
declared count remain for the payload.  The UTF-8 decoding of the
payload is abstracted: the payload bytes themselves are the string. -/
def read_wasm_str (buf : List Nat) (off : Nat) : Option (List Nat × Nat) :=
  match buf.get? off, buf.get? (off+1) with
  | some b0, some b1 =>
    let n := b0 * 256 + b1
    if off + 2 + n ≤ buf.length then
      some ((buf.drop (off + 2)).take n, off + 2 + n)
    else none
  | _, _ => none

/-- One 4-byte length word of the header (lines 160-170 of mod.rs): the
top bit of the first byte is the presence flag, and the stored length is
the word masked with i32::MAX; 4 bytes are always consumed, so the
caller continues at off + 4 either way. -/
def parseLenWord (buf : List Nat) (off : Nat) : Step (Option Nat) :=
  match buf.get? off with
  | none => .oob
  | some b0 =>
    if b0 >>> 7 ≠ 0 then
      match readU32At buf off with
      | none => .oob
      | some w => .ok (some (w &&& (2 ^ 31 - 1)))
    else .ok .none

/-- The has-request-id flag byte at off and, when it is 1, the 4-byte
request id guarded by an explicit length check (lines 173-190 of
mod.rs); the returned cursor points past the section. -/
def parseRequestId (buf : List Nat) (off : Nat) : Step (Option Nat × Nat) :=
  match buf.get? off with
  | none => .oob
  | some b =>
    match b with
    | 0 => .ok (none, off + 1)
    | 1 =>
      if off + 1 + 4 > buf.length then .err .tooShortRequestId
      else
        match readU32At buf (off + 1) with
        | none => .oob
        | some w => .ok (some w, off + 1 + 4)
    | _ => .err .invalidFlagRequestId

/-- The client-to-server request section (lines 193-218 of mod.rs): four
length-prefixed strings assigned in order to req_type, endpoint, domain,
resource; any read failure aborts the whole decode. -/
def parseReq (buf : List Nat) (off : Nat) : Step (CustomInfoRequest × Nat) :=
  match read_wasm_str buf off with
  | none => .err .tooShortRequest
  | some (s1, o1) =>
    match read_wasm_str buf o1 with
    | none => .err .tooShortRequest
    | some (s2, o2) =>
      match read_wasm_str buf o2 with
      | none => .err .tooShortRequest
      | some (s3, o3) =>
        match read_wasm_str buf o3 with
        | none => .err .tooShortRequest
        | some (s4, o4) =>
          .ok ({ req_type := s1, endpoint := s2, domain := s3, resource := s4 }, o4)

/-- The two response strings result and exception read after the status
and code section (lines 254-268 of mod.rs). -/
def parseRespStrings (buf : List Nat) (off : Nat) (st : L7ResponseStatus)
    (code : Option Int) : Step (CustomInfoResp × Nat) :=
  match read_wasm_str buf off with
  | none => .err .tooShortResponse
  | some (res, o1) =>
    match read_wasm_str buf o1 with
    | none => .err .tooShortResponse
    | some (exc, o2) =>
      .ok ({ status := st, code := code, result := res, exception := exc }, o2)

/-- The server-to-client response section (lines 221-268 of mod.rs): one
status byte, one has-code flag byte with an optional length-checked
4-byte code, then the result and exception strings.  The status byte and
the has-code byte are read without any bounds check in the source, so a
buffer ending there yields oob. -/
def parseResp (buf : List Nat) (off : Nat) : Step (CustomInfoResp × Nat) :=
  match buf.get? off with
  | none => .oob
  | some status =>
    match (match status with
           | 0 => some L7ResponseStatus.ok
           | 2 => some L7ResponseStatus.clientError
           | 3 => some L7ResponseStatus.serverError
           | _ => none) with
    | none => .err .invalidStatus
    | some st =>
      match buf.get? (off + 1) with
      | none => .oob
      | some hasCode =>
        match hasCode with
        | 0 => parseRespStrings buf (off + 2) st none
        | 1 =>
          if off + 2 + 4 > buf.length then .err .tooShortCode
          else
            match readU32At buf (off + 2) with
            | none => .oob
            | some w => parseRespStrings buf (off + 2 + 4) st (some (u32AsI32 w))
        | _ => .err .invalidFlagCode

/-- The direction-dependent middle section of the decode (lines 192-270
of mod.rs): the request strings for client-to-server, the response
section for server-to-client; the unused side of the record keeps its
Default value. -/
def parseBody (buf : List Nat) (dir : PacketDirection) (off : Nat) :
    Step ((CustomInfoRequest × CustomInfoResp) × Nat) :=
  match dir with
  | .clientToServer =>
    Step.bind (parseReq buf off) fun p => .ok ((p.1, {}), p.2)
  | .serverToClient =>
    Step.bind (parseResp buf off) fun p => .ok (({}, p.1), p.2)

/-- The trace section (lines 273-308 of mod.rs): a mandatory has-trace
flag byte, guarded by an explicit length check, and when it is 1 three
length-prefixed strings trace_id, span_id, parent_span_id. -/
def parseTrace (buf : List Nat) (off : Nat) : Step (CustomInfoTrace × Nat) :=
  if off + 1 > buf.length then .err .tooShortTraceFlag
  else
    match buf.get? off with
    | none => .oob
    | some b =>
      match b with
      | 0 => .ok ({}, off + 1)
      | 1 =>
        match read_wasm_str buf (off + 1) with
        | none => .err .tooShortTrace
        | some (t1, o1) =>
          match read_wasm_str buf o1 with
          | none => .err .tooShortTrace
          | some (t2, o2) =>
            match read_wasm_str buf o2 with
            | none => .err .tooShortTrace
            | some (t3, o3) =>
              .ok ({ trace_id := some t1, span_id := some t2,
                     parent_span_id := some t3 }, o3)
      | _ => .err .invalidFlagTrace

/-- Fuel-indexed form of the attribute loop of the kv section (lines
321-329 of mod.rs): each iteration reads a key string and a value string
and appends the pair, and the loop ends as soon as either read fails;
the fuel only bounds the iteration count, and kvLoop instantiates it
with a bound that is proved never to run out (each iteration advances
the cursor by at least 4 while the cursor never passes the buffer
length). -/
def kvLoopF (buf : List Nat) : Nat → Nat → List KeyVal → List KeyVal
  | 0, _, acc => acc
  | fuel + 1, off, acc =>
    match read_wasm_str buf off with
    | none => acc
    | some (k, o1) =>
      match read_wasm_str buf o1 with
      | none => acc
      | some (v, o2) => kvLoopF buf fuel o2 (acc ++ [⟨k, v⟩])

/-- The attribute loop of the kv section, started with sufficient fuel;
the theorems kvLoop_stop_first, kvLoop_stop_second and kvLoop_step below
establish that it satisfies exactly the loop equations of the source. -/
def kvLoop (buf : List Nat) (off : Nat) (acc : List KeyVal) : List KeyVal :=
  kvLoopF buf (buf.length + 1 - off) off acc

/-- The kv section (lines 311-335 of mod.rs): a mandatory has-kv flag
byte guarded by an explicit length check, and when it is 1 the lenient
attribute loop starting from an empty accumulator. -/
def parseKv (buf : List Nat) (off : Nat) : Step (List KeyVal) :=
  if off + 1 > buf.length then .err .tooShortKvFlag
  else
    match buf.get? off with
    | none => .oob
    | some b =>
      match b with
      | 0 => .ok []
      | 1 => .ok (kvLoop buf (off + 1) [])
      | _ => .err .invalidFlagKv

/-- The decoder TryFrom (buffer, direction) for CustomInfo (lines
152-337 of mod.rs): the initial length guard, the two header length
words, the request-id section, the direction-dependent body, then the
trace and kv sections; every field not written by the reached sections
keeps its Default value, exactly as in the source. -/
def try_from (buf : List Nat) (dir : PacketDirection) : Step CustomInfo :=
  if buf.length < 9 then .err .tooShortHeader
  else
    Step.bind (parseLenWord buf 0) fun reqLen =>
    Step.bind (parseLenWord buf 4) fun respLen =>
    Step.bind (parseRequestId buf 8) fun ri =>
    Step.bind (parseBody buf dir ri.2) fun body =>
    Step.bind (parseTrace buf body.2) fun tr =>
    Step.bind (parseKv buf tr.2) fun attrs =>
    .ok { req_len := reqLen, resp_len := respLen, request_id := ri.1,
          req := body.1.1, resp := body.1.2, trace := tr.1,
          attributes := attrs }

/-- The sum of protocol info variants handled by merge_log
(L7ProtocolInfo of l7_protocol_info.rs, outside src/): only the
CustomInfo variant contributes to a merge, every other variant is
collapsed into one constructor that merge_log ignores. -/
inductive L7ProtocolInfo where
  | customInfo (w : CustomInfo)
  | otherVariant

/-- The merge of the counterpart record into self (merge_log, lines
345-362 of mod.rs): the response is overwritten unconditionally, each
trace field is adopted only when currently absent in self, the incoming
attributes are appended after the existing ones; a non-CustomInfo
counterpart leaves self unchanged; the constant Ok result of the source
is omitted. -/
def merge_log (self : CustomInfo) (other : L7ProtocolInfo) : CustomInfo :=
  match other with
  | .otherVariant => self
  | .customInfo w =>
    { self with
      resp := w.resp
      trace :=
        { trace_id :=
            match self.trace.trace_id with
            | none => w.trace.trace_id
            | some x => some x
          span_id :=
            match self.trace.span_id with
            | none => w.trace.span_id
            | some x => some x
          parent_span_id :=
            match self.trace.parent_span_id with
            | none => w.trace.parent_span_id
            | some x => some x }
      attributes := self.attributes ++ w.attributes }

/-- The tap type protocol identifier (TapType, lines 155-161 of
enums.rs); Isp carries the raw byte of the reserved payload sub-range,
modelled as a natural number below 256, and Max is the internal upper
sentinel. -/
inductive TapType where
  | any
  | isp (v : Nat)
  | tor
  | max
deriving DecidableEq

/-- TryFrom u16 for TapType (lines 163-173 of enums.rs): 0 is Any, 3 is
Tor, any other value below 256 is Isp of that value, and everything from
256 up is rejected. -/
def tapTypeOfU16 (t : Nat) : Option TapType :=
  if t = 0 then some .any
  else if t = 3 then some .tor
  else if t < 256 then some (.isp t)
  else none

/-- From TapType for u16 (lines 175-184 of enums.rs). -/
def u16OfTapType : TapType → Nat
  | .any => 0
  | .isp v => v
  | .tor => 3
  | .max => 256

/-- A successful string read advances the cursor by at least the 2-byte
length prefix and never moves it past the end of the buffer. -/
theorem read_wasm_str_advance {buf : List Nat} {off o : Nat} {s : List Nat}
    (h : read_wasm_str buf off = some (s, o)) :
    off + 2 ≤ o ∧ o ≤ buf.length := by
  unfold read_wasm_str at h
  rcases h0 : buf.get? off with _ | b0 <;> rw [h0] at h
  · simp at h
  rcases h1 : buf.get? (off + 1) with _ | b1 <;> rw [h1] at h
  · simp at h
  simp only at h
  split at h
  · rename_i hle
    simp only [Option.some.injEq, Prod.mk.injEq] at h
    omega
  · simp at h

/-- Above the fuel bound, the fuel amount does not change the value of
the attribute loop. -/
theorem kvLoopF_stable {buf : List Nat} : ∀ f1 f2 off acc,
    buf.length - off < f1 → buf.length - off < f2 →
    kvLoopF buf f1 off acc = kvLoopF buf f2 off acc := by
  intro f1
  induction f1 with
  | zero => intro f2 off acc h1 h2; omega
  | succ a ih =>
    intro f2 off acc h1 h2
    cases f2 with
    | zero => omega
    | succ b =>
      show kvLoopF buf (a + 1) off acc = kvLoopF buf (b + 1) off acc
      rcases hk : read_wasm_str buf off with _ | ⟨k, o1⟩
      · simp [kvLoopF, hk]
      rcases hv : read_wasm_str buf o1 with _ | ⟨v, o2⟩
      · simp [kvLoopF, hk, hv]
      · have a1 := read_wasm_str_advance hk
        have a2 := read_wasm_str_advance hv
        simp only [kvLoopF, hk, hv]
        exact ih b o2 (acc ++ [⟨k, v⟩]) (by omega) (by omega)

/-- First loop equation: when the key read fails, the loop returns the
pairs accumulated so far. -/
theorem kvLoop_stop_first {buf : List Nat} {off : Nat} {acc : List KeyVal}
    (h : read_wasm_str buf off = none) : kvLoop buf off acc = acc := by
  unfold kvLoop
  cases hf : buf.length + 1 - off with
  | zero => rfl
  | succ a => simp [kvLoopF, h]

/-- Second loop equation: when the key read succeeds but the value read
fails, the loop returns the pairs accumulated so far. -/
theorem kvLoop_stop_second {buf : List Nat} {off o1 : Nat} {k : List Nat}
    {acc : List KeyVal} (h1 : read_wasm_str buf off = some (k, o1))
    (h2 : read_wasm_str buf o1 = none) : kvLoop buf off acc = acc := by
  have a1 := read_wasm_str_advance h1
  obtain ⟨m, hm⟩ : ∃ m, buf.length + 1 - off = m + 1 :=
    ⟨buf.length - off, by omega⟩
  unfold kvLoop
  rw [hm]
  simp [kvLoopF, h1, h2]

/-- Third loop equation: when both reads succeed, the pair is appended
and the loop continues at the advanced cursor. -/
theorem kvLoop_step {buf : List Nat} {off o1 o2 : Nat} {k v : List Nat}
    {acc : List KeyVal} (h1 : read_wasm_str buf off = some (k, o1))
    (h2 : read_wasm_str buf o1 = some (v, o2)) :
    kvLoop buf off acc = kvLoop buf o2 (acc ++ [⟨k, v⟩]) := by
  have a1 := read_wasm_str_advance h1
  have a2 := read_wasm_str_advance h2
  obtain ⟨m, hm⟩ : ∃ m, buf.length + 1 - off = m + 1 :=
    ⟨buf.length - off, by omega⟩
  unfold kvLoop
  rw [hm]
  simp only [kvLoopF, h1, h2]
  exact @kvLoopF_stable buf m (buf.length + 1 - o2) o2 (acc ++ [⟨k, v⟩])
    (by omega) (by omega)

/-- An index below the length always yields a byte. -/
theorem get?_eq_some_of_lt (l : List Nat) (n : Nat) (h : n < l.length) :
    ∃ b, l.get? n = some b := by
  rcases h0 : l.get? n with _ | b
  · rw [List.get?_eq_none] at h0; omega
  · exact ⟨b, rfl⟩

/-- A string read starting at or past the end of the buffer fails. -/
theorem read_wasm_str_none_of_ge (buf : List Nat) (off : Nat)
    (h : buf.length ≤ off) : read_wasm_str buf off = none := by
  unfold read_wasm_str
  rw [List.get?_eq_none.mpr h]

/-- A 4-byte big-endian read within the buffer always yields a word. -/
theorem readU32At_isOk (buf : List Nat) (off : Nat)
    (h : off + 4 ≤ buf.length) : ∃ w, readU32At buf off = some w := by
  obtain ⟨a, ha⟩ := get?_eq_some_of_lt buf off (by omega)
  obtain ⟨b, hb⟩ := get?_eq_some_of_lt buf (off + 1) (by omega)
  obtain ⟨c, hc⟩ := get?_eq_some_of_lt buf (off + 2) (by omega)
  obtain ⟨d, hd⟩ := get?_eq_some_of_lt buf (off + 3) (by omega)
  refine ⟨((a * 256 + b) * 256 + c) * 256 + d, ?_⟩
  unfold readU32At
  rw [ha, hb, hc, hd]

/-- A header length word within the buffer never aborts the decode. -/
theorem parseLenWord_isOk (buf : List Nat) (off : Nat)
    (h : off + 4 ≤ buf.length) : ∃ r, parseLenWord buf off = .ok r := by
  obtain ⟨b0, h0⟩ := get?_eq_some_of_lt buf off (by omega)
  unfold parseLenWord
  simp only [h0]
  by_cases hbit : b0 >>> 7 ≠ 0
  · rw [if_pos hbit]
    obtain ⟨w, hw⟩ := readU32At_isOk buf off h
    rw [hw]
    exact ⟨some (w &&& (2 ^ 31 - 1)), rfl⟩
  · rw [if_neg hbit]
    exact ⟨none, rfl⟩

/-- C2: when the decoder reaches the has-kv flag with value 1, it runs
the attribute loop from an empty accumulator; the loop appends each
well-read (key, value) pair in order and stops, without error, as soon
as either string read fails; in particular the full decode of a buffer
whose kv section holds one well-formed pair followed by a truncated
second key length prefix (1 byte where 2 are needed) succeeds with
exactly one attribute pair. -/
theorem c2_kv_loop_lenient :
    (∀ buf off, off < buf.length → buf.get? off = some 1 →
       parseKv buf off = .ok (kvLoop buf (off + 1) [])) ∧
    (∀ buf off acc, read_wasm_str buf off = none →
       kvLoop buf off acc = acc) ∧
    (∀ buf off o1 k acc, read_wasm_str buf off = some (k, o1) →
       read_wasm_str buf o1 = none → kvLoop buf off acc = acc) ∧
    (∀ buf off o1 o2 k v acc, read_wasm_str buf off = some (k, o1) →
       read_wasm_str buf o1 = some (v, o2) →
       kvLoop buf off acc = kvLoop buf o2 (acc ++ [⟨k, v⟩])) ∧
    try_from [0, 0, 0, 0, 0, 0, 0, 0, 0, 0, 0, 0, 0, 0, 0, 0, 0,
              0, 1, 0, 1, 97, 0, 1, 98, 0] .clientToServer =
      .ok { attributes := [⟨[97], [98]⟩] } := by
  refine ⟨?_, ?_, ?_, ?_, by rfl⟩
  · intro buf off hlt hb
    unfold parseKv
    rw [if_neg (by omega), hb]
  · intro buf off acc h
    exact kvLoop_stop_first h
  · intro buf off o1 k acc h1 h2
    exact kvLoop_stop_second h1 h2
  · intro buf off o1 o2 k v acc h1 h2
    exact kvLoop_step h1 h2

/-- Witness for C2, instantiating each universally quantified conjunct
at a concrete buffer. -/
theorem c2_kv_loop_lenient_witness :
    parseKv [1] 0 = .ok (kvLoop [1] 1 []) ∧
    kvLoop [] 0 [] = [] ∧
    kvLoop [0, 0, 5] 0 [] = [] ∧
    kvLoop [0, 0, 0, 0] 0 [] = kvLoop [0, 0, 0, 0] 4 ([] ++ [⟨[], []⟩]) :=
  ⟨c2_kv_loop_lenient.1 [1] 0 (by decide) (by rfl),
   c2_kv_loop_lenient.2.1 [] 0 [] (by rfl),
   c2_kv_loop_lenient.2.2.1 [0, 0, 5] 0 2 [] [] (by rfl) (by rfl),
   c2_kv_loop_lenient.2.2.2.1 [0, 0, 0, 0] 0 2 4 [] [] [] (by rfl) (by rfl)⟩

/-- C10: the decode terminates on every finite buffer: each successful
(key, value) pair read strictly advances the cursor by at least 4 bytes
(two 2-byte length prefixes) while the cursor never exceeds the buffer
length, so the attribute loop makes at most length-many iterations: any
fuel above the length bound computes the loop exactly. -/
theorem c10_kv_loop_terminates :
    (∀ buf off o1 o2 (k v : List Nat),
       read_wasm_str buf off = some (k, o1) →
       read_wasm_str buf o1 = some (v, o2) →
       off + 4 ≤ o2 ∧ o2 ≤ buf.length) ∧
    (∀ buf fuel off acc, buf.length - off < fuel →
       kvLoopF buf fuel off acc = kvLoop buf off acc) := by
  constructor
  · intro buf off o1 o2 k v h1 h2
    have a1 := read_wasm_str_advance h1
    have a2 := read_wasm_str_advance h2
    omega
  · intro buf fuel off acc h
    by_cases hoff : off ≤ buf.length
    · unfold kvLoop
      exact @kvLoopF_stable buf fuel (buf.length + 1 - off) off acc h
        (by omega)
    · have hn : read_wasm_str buf off = none :=
        read_wasm_str_none_of_ge buf off (by omega)
      rw [kvLoop_stop_first hn]
      cases fuel with
      | zero => omega
      | succ f => simp [kvLoopF, hn]

/-- Witness for C10 at a concrete buffer holding one empty pair. -/
theorem c10_kv_loop_terminates_witness :
    (0 + 4 ≤ 4 ∧ 4 ≤ ([0, 0, 0, 0] : List Nat).length) ∧
    kvLoopF [] 1 0 [] = kvLoop [] 0 [] :=
  ⟨c10_kv_loop_terminates.1 [0, 0, 0, 0] 0 2 4 [] [] (by rfl) (by rfl),
   c10_kv_loop_terminates.2 [] 1 0 [] (by decide)⟩

/-- C5: a flag byte holding any value other than 0 or 1 at the
has-request-id position makes the whole decode fail with the
corresponding InvalidFlag error and no decoded record (so no later
field is populated); the same holds for the has-code byte of the
response section, the has-trace byte and the has-kv byte within their
sections. -/
theorem c5_invalid_flag_errors :
    (∀ buf dir b, 9 ≤ buf.length → buf.get? 8 = some b →
       b ≠ 0 → b ≠ 1 → try_from buf dir = .err .invalidFlagRequestId) ∧
    (∀ buf off s b, buf.get? off = some s → (s = 0 ∨ s = 2 ∨ s = 3) →
       buf.get? (off + 1) = some b → b ≠ 0 → b ≠ 1 →
       parseResp buf off = .err .invalidFlagCode) ∧
    (∀ buf off b, off < buf.length → buf.get? off = some b →
       b ≠ 0 → b ≠ 1 → parseTrace buf off = .err .invalidFlagTrace) ∧
    (∀ buf off b, off < buf.length → buf.get? off = some b →
       b ≠ 0 → b ≠ 1 → parseKv buf off = .err .invalidFlagKv) := by
  refine ⟨?_, ?_, ?_, ?_⟩
  · intro buf dir b hlen h8 hb0 hb1
    obtain ⟨r0, e0⟩ := parseLenWord_isOk buf 0 (by omega)
    obtain ⟨r4, e4⟩ := parseLenWord_isOk buf 4 (by omega)
    have e8 : parseRequestId buf 8 = .err .invalidFlagRequestId := by
      unfold parseRequestId
      rw [h8]
      obtain ⟨n, rfl⟩ : ∃ n, b = n + 2 := ⟨b - 2, by omega⟩
      rfl
    unfold try_from
    rw [if_neg (by omega), e0]
    simp only [Step.bind]
    rw [e4]
    simp only [Step.bind]
    rw [e8]
  · intro buf off s b hs hsv hb hb0 hb1
    unfold parseResp
    rw [hs, hb]
    obtain ⟨n, rfl⟩ : ∃ n, b = n + 2 := ⟨b - 2, by omega⟩
    rcases hsv with rfl | rfl | rfl <;> rfl
  · intro buf off b hlt hb hb0 hb1
    unfold parseTrace
    rw [if_neg (by omega), hb]
    obtain ⟨n, rfl⟩ : ∃ n, b = n + 2 := ⟨b - 2, by omega⟩
    rfl
  · intro buf off b hlt hb hb0 hb1
    unfold parseKv
    rw [if_neg (by omega), hb]
    obtain ⟨n, rfl⟩ : ∃ n, b = n + 2 := ⟨b - 2, by omega⟩
    rfl

/-- Witness for C5, one concrete bad flag byte per position. -/
theorem c5_invalid_flag_errors_witness :
    try_from [0, 0, 0, 0, 0, 0, 0, 0, 7] .clientToServer =
      .err .invalidFlagRequestId ∧
    parseResp [0, 9] 0 = .err .invalidFlagCode ∧
    parseTrace [5] 0 = .err .invalidFlagTrace ∧
    parseKv [5] 0 = .err .invalidFlagKv :=
  ⟨c5_invalid_flag_errors.1 [0, 0, 0, 0, 0, 0, 0, 0, 7] .clientToServer 7
      (by decide) (by rfl) (by decide) (by decide),
   c5_invalid_flag_errors.2.1 [0, 9] 0 0 9 (by rfl) (Or.inl rfl)
      (by rfl) (by decide) (by decide),
   c5_invalid_flag_errors.2.2.1 [5] 0 5 (by decide) (by rfl)
      (by decide) (by decide),
   c5_invalid_flag_errors.2.2.2 [5] 0 5 (by decide) (by rfl)
      (by decide) (by decide)⟩

/-- The request-id section of a 9-byte-or-longer buffer errs or
succeeds but never reads out of bounds. -/
theorem parseRequestId_classify (buf : List Nat) (h : 9 ≤ buf.length) :
    parseRequestId buf 8 = .err .tooShortRequestId ∨
    parseRequestId buf 8 = .err .invalidFlagRequestId ∨
    ∃ r, parseRequestId buf 8 = .ok r := by
  unfold parseRequestId
  split
  · rename_i heq
    rw [List.get?_eq_none] at heq
    omega
  split
  · exact Or.inr (Or.inr ⟨_, rfl⟩)
  · split
    · exact Or.inl rfl
    split
    · rename_i hle heq
      obtain ⟨w, hw⟩ := readU32At_isOk buf (8 + 1) (by omega)
      rw [hw] at heq
      simp at heq
    · exact Or.inr (Or.inr ⟨_, rfl⟩)
  · exact Or.inr (Or.inl rfl)

/-- The request section errs or succeeds but never reads out of
bounds. -/
theorem parseReq_classify (buf : List Nat) (off : Nat) :
    parseReq buf off = .err .tooShortRequest ∨
    ∃ r, parseReq buf off = .ok r := by
  unfold parseReq
  split
  · exact Or.inl rfl
  split
  · exact Or.inl rfl
  split
  · exact Or.inl rfl
  split
  · exact Or.inl rfl
  exact Or.inr ⟨_, rfl⟩

/-- The trace section errs or succeeds but never reads out of
bounds. -/
theorem parseTrace_classify (buf : List Nat) (off : Nat) :
    (∃ e, parseTrace buf off = .err e) ∨
    ∃ r, parseTrace buf off = .ok r := by
  unfold parseTrace
  split
  · exact Or.inl ⟨_, rfl⟩
  split
  · rename_i hle heq
    rw [List.get?_eq_none] at heq
    omega
  split
  · exact Or.inr ⟨_, rfl⟩
  · split
    · exact Or.inl ⟨_, rfl⟩
    split
    · exact Or.inl ⟨_, rfl⟩
    split
    · exact Or.inl ⟨_, rfl⟩
    exact Or.inr ⟨_, rfl⟩
  · exact Or.inl ⟨_, rfl⟩

/-- The kv section errs or succeeds but never reads out of bounds. -/
theorem parseKv_classify (buf : List Nat) (off : Nat) :
    (∃ e, parseKv buf off = .err e) ∨ ∃ r, parseKv buf off = .ok r := by
  unfold parseKv
  split
  · exact Or.inl ⟨_, rfl⟩
  split
  · rename_i hle heq
    rw [List.get?_eq_none] at heq
    omega
  split
  · exact Or.inr ⟨_, rfl⟩
  · exact Or.inr ⟨_, rfl⟩
  · exact Or.inl ⟨_, rfl⟩

/-- A client-to-server decode never reaches an unchecked byte access:
every outcome is an explicit error or a record. -/
theorem try_from_c2s_classify (buf : List Nat) :
    (∃ e, try_from buf .clientToServer = .err e) ∨
    ∃ info, try_from buf .clientToServer = .ok info := by
  unfold try_from
  by_cases h9 : buf.length < 9
  · rw [if_pos h9]
    exact Or.inl ⟨_, rfl⟩
  · rw [if_neg h9]
    obtain ⟨r0, e0⟩ := parseLenWord_isOk buf 0 (by omega)
    obtain ⟨r4, e4⟩ := parseLenWord_isOk buf 4 (by omega)
    rw [e0]
    simp only [Step.bind]
    rw [e4]
    simp only [Step.bind]
    rcases parseRequestId_classify buf (by omega) with he | he | ⟨r, he⟩
    · rw [he]
      exact Or.inl ⟨_, rfl⟩
    · rw [he]
      exact Or.inl ⟨_, rfl⟩
    · rw [he]
      simp only [Step.bind, parseBody]
      rcases parseReq_classify buf r.2 with he2 | ⟨q, he2⟩
      · rw [he2]
        exact Or.inl ⟨_, rfl⟩
      · rw [he2]
        simp only [Step.bind]
        rcases parseTrace_classify buf q.2 with ⟨e, he3⟩ | ⟨t, he3⟩
        · rw [he3]
          exact Or.inl ⟨_, rfl⟩
        · rw [he3]
          simp only [Step.bind]
          rcases parseKv_classify buf t.2 with ⟨e, he4⟩ | ⟨a, he4⟩
          · rw [he4]
            exact Or.inl ⟨_, rfl⟩
          · rw [he4]
            exact Or.inr ⟨_, rfl⟩

/-- C1: the claim asks that every byte access of the decoder, including
the single-byte status and has-code reads of the ServerToClient branch,
be bounds-checked so that decode never panics on any input.  The
client-to-server side satisfies this (first conjunct: every outcome is
an error or a record), but the server-to-client branch violates it
exactly at the two highlighted reads: on a 9-byte buffer the status
byte is read at index 9 of a 9-byte slice with no length check (second
conjunct), and on a 10-byte buffer with a valid status byte the
has-code byte is read at index 10 (third conjunct). -/
theorem c1_status_read_out_of_bounds :
    (∀ buf, (∃ e, try_from buf .clientToServer = .err e) ∨
       ∃ info, try_from buf .clientToServer = .ok info) ∧
    try_from [0, 0, 0, 0, 0, 0, 0, 0, 0] .serverToClient = .oob ∧
    try_from [0, 0, 0, 0, 0, 0, 0, 0, 0, 0] .serverToClient = .oob :=
  ⟨try_from_c2s_classify, by rfl, by rfl⟩

/-- C4: merging a same-kind incoming record overwrites the response
unconditionally, adopts each trace field only when it is currently
absent in the base (independently per field), appends the incoming
attributes after the base's without deduplication, and leaves every
other field of the base unchanged. -/
theorem c4_merge_fields (base w : CustomInfo) :
    (merge_log base (.customInfo w)).resp = w.resp ∧
    (merge_log base (.customInfo w)).trace.trace_id =
      (if base.trace.trace_id = none then w.trace.trace_id
       else base.trace.trace_id) ∧
    (merge_log base (.customInfo w)).trace.span_id =
      (if base.trace.span_id = none then w.trace.span_id
       else base.trace.span_id) ∧
    (merge_log base (.customInfo w)).trace.parent_span_id =
      (if base.trace.parent_span_id = none then w.trace.parent_span_id
       else base.trace.parent_span_id) ∧
    (merge_log base (.customInfo w)).attributes =
      base.attributes ++ w.attributes ∧
    (merge_log base (.customInfo w)).proto = base.proto ∧
    (merge_log base (.customInfo w)).proto_str = base.proto_str ∧
    (merge_log base (.customInfo w)).msg_type = base.msg_type ∧
    (merge_log base (.customInfo w)).rrt = base.rrt ∧
    (merge_log base (.customInfo w)).req_len = base.req_len ∧
    (merge_log base (.customInfo w)).resp_len = base.resp_len ∧
    (merge_log base (.customInfo w)).request_id = base.request_id ∧
    (merge_log base (.customInfo w)).req = base.req := by
  refine ⟨rfl, ?_, ?_, ?_, rfl, rfl, rfl, rfl, rfl, rfl, rfl, rfl, rfl⟩
  · cases h : base.trace.trace_id <;> simp [merge_log, h]
  · cases h : base.trace.span_id <;> simp [merge_log, h]
  · cases h : base.trace.parent_span_id <;> simp [merge_log, h]

/-- C6: any buffer shorter than 9 bytes fails with the header TooShort
error in both directions, with no partial record. -/
theorem c6_short_buffer (buf : List Nat) (dir : PacketDirection)
    (h : buf.length < 9) : try_from buf dir = .err .tooShortHeader := by
  unfold try_from
  rw [if_pos h]

/-- Witness for C6 at the empty buffer. -/
theorem c6_short_buffer_witness :
    ([] : List Nat).length < 9 ∧
      try_from [] .clientToServer = .err .tooShortHeader :=
  ⟨by decide, c6_short_buffer [] .clientToServer (by decide)⟩

/-- C7: a ServerToClient buffer with status byte 3, has-code 1 followed
by the bytes FF FF FF FF, then empty result and exception strings (and
the mandatory trailing trace and kv flag bytes, both 0) decodes
successfully to status ServerError with code -1: the four code bytes
are read as a big-endian unsigned 32-bit value and reinterpreted as a
signed 32-bit integer, as the second conjunct states at the value
4294967295. -/
theorem c7_negative_code :
    try_from [0, 0, 0, 0, 0, 0, 0, 0, 0, 3, 1, 255, 255, 255, 255,
              0, 0, 0, 0, 0, 0] .serverToClient =
      .ok { resp := { status := .serverError, code := some (-1) } } ∧
    u32AsI32 4294967295 = -1 := by
  exact ⟨by rfl, by decide⟩

/-- C8: merge is not idempotent: applying the same incoming record
twice appends its (non-empty) attribute list twice, so the twice-merged
base differs from the once-merged one. -/
theorem c8_merge_not_idempotent (base w : CustomInfo)
    (h : w.attributes ≠ []) :
    (merge_log (merge_log base (.customInfo w)) (.customInfo w)).attributes =
      base.attributes ++ w.attributes ++ w.attributes ∧
    (merge_log (merge_log base (.customInfo w)) (.customInfo w)).attributes ≠
      (merge_log base (.customInfo w)).attributes := by
  have h2 : (merge_log (merge_log base (.customInfo w))
      (.customInfo w)).attributes =
      base.attributes ++ w.attributes ++ w.attributes := by
    simp [merge_log]
  have h1 : (merge_log base (.customInfo w)).attributes =
      base.attributes ++ w.attributes := by
    simp [merge_log]
  refine ⟨h2, ?_⟩
  rw [h1, h2]
  intro heq
  have hlen := congrArg List.length heq
  simp only [List.length_append] at hlen
  exact h (List.length_eq_zero.mp (by omega))

/-- Witness for C8 with a one-attribute incoming record. -/
theorem c8_merge_not_idempotent_witness :
    ({ attributes := [⟨[1], [2]⟩] } : CustomInfo).attributes ≠ [] ∧
    ((merge_log (merge_log {} (.customInfo { attributes := [⟨[1], [2]⟩] }))
        (.customInfo { attributes := [⟨[1], [2]⟩] })).attributes =
      ({} : CustomInfo).attributes ++ [⟨[1], [2]⟩] ++ [⟨[1], [2]⟩] ∧
     (merge_log (merge_log {} (.customInfo { attributes := [⟨[1], [2]⟩] }))
        (.customInfo { attributes := [⟨[1], [2]⟩] })).attributes ≠
      (merge_log {} (.customInfo { attributes := [⟨[1], [2]⟩] })).attributes) :=
  ⟨by decide, c8_merge_not_idempotent {} { attributes := [⟨[1], [2]⟩] }
      (by decide)⟩

/-- Spec-compliant big-endian 4-byte encoding of a 32-bit word, used to
state the round-trip property of the header length words. -/
def encBE4 (w : Nat) : List Nat :=
  [w / 2 ^ 24 % 256, w / 2 ^ 16 % 256, w / 2 ^ 8 % 256, w % 256]

/-- Minimal spec-compliant remainder of a client-to-server buffer after
the two header length words: no request id, four empty request strings,
no trace, no kv. -/
def c3Tail : List Nat := [0, 0, 0, 0, 0, 0, 0, 0, 0, 0, 0]

/-- Decoding a length word freshly encoded from a 32-bit value: the top
bit decides presence, and a present length is the low 31 bits of the
word. -/
theorem parseLenWord_encBE4 (w : Nat) (rest : List Nat) (hw : w < 2 ^ 32) :
    parseLenWord (encBE4 w ++ rest) 0 =
      .ok (if 2 ^ 31 ≤ w then some (w % 2 ^ 31) else none) := by
  have hget : (encBE4 w ++ rest).get? 0 = some (w / 2 ^ 24 % 256) := rfl
  have hr : readU32At (encBE4 w ++ rest) 0 =
      some (((w / 2 ^ 24 % 256 * 256 + w / 2 ^ 16 % 256) * 256 +
        w / 2 ^ 8 % 256) * 256 + w % 256) := rfl
  have hcombo : ((w / 2 ^ 24 % 256 * 256 + w / 2 ^ 16 % 256) * 256 +
      w / 2 ^ 8 % 256) * 256 + w % 256 = w := by omega
  have hshift : (w / 2 ^ 24 % 256) >>> 7 = w / 2 ^ 31 := by
    rw [Nat.shiftRight_eq_div_pow]
    omega
  unfold parseLenWord
  simp only [hget, hshift]
  by_cases hple : 2 ^ 31 ≤ w
  · rw [if_pos (show w / 2 ^ 31 ≠ 0 by omega)]
    simp only [hr, hcombo]
    rw [Nat.and_pow_two_sub_one_eq_mod, if_pos hple]
  · rw [if_neg (show ¬ w / 2 ^ 31 ≠ 0 by omega), if_neg hple]

/-- C3: each 4-byte big-endian length word uses its top bit as the
presence flag; a set flag yields the word masked to its low 31 bits (the
presence bit is not part of the magnitude), a clear flag yields an
absent length; exactly 4 bytes are consumed either way, so a full
decode of a spec-compliant encoding reproduces both optional lengths
exactly. -/
theorem c3_len_word_round_trip :
    (∀ w rest, w < 2 ^ 32 → parseLenWord (encBE4 w ++ rest) 0 =
       .ok (if 2 ^ 31 ≤ w then some (w % 2 ^ 31) else none)) ∧
    (∀ w1 w2, w1 < 2 ^ 32 → w2 < 2 ^ 32 →
       try_from (encBE4 w1 ++ (encBE4 w2 ++ c3Tail)) .clientToServer =
         .ok { req_len := if 2 ^ 31 ≤ w1 then some (w1 % 2 ^ 31) else none,
               resp_len :=
                 if 2 ^ 31 ≤ w2 then some (w2 % 2 ^ 31) else none }) := by
  constructor
  · exact parseLenWord_encBE4
  · intro w1 w2 hw1 hw2
    have hlen : (encBE4 w1 ++ (encBE4 w2 ++ c3Tail)).length = 19 := by
      simp [encBE4, c3Tail]
    have e0 := parseLenWord_encBE4 w1 (encBE4 w2 ++ c3Tail) hw1
    have e4 : parseLenWord (encBE4 w1 ++ (encBE4 w2 ++ c3Tail)) 4 =
        .ok (if 2 ^ 31 ≤ w2 then some (w2 % 2 ^ 31) else none) := by
      have sh : parseLenWord (encBE4 w1 ++ (encBE4 w2 ++ c3Tail)) 4 =
          parseLenWord (encBE4 w2 ++ c3Tail) 0 := rfl
      rw [sh]
      exact parseLenWord_encBE4 w2 c3Tail hw2
    have e8 : parseRequestId (encBE4 w1 ++ (encBE4 w2 ++ c3Tail)) 8 =
        .ok (none, 9) := rfl
    have eb : parseBody (encBE4 w1 ++ (encBE4 w2 ++ c3Tail))
        .clientToServer 9 = .ok (({}, {}), 17) := rfl
    have et : parseTrace (encBE4 w1 ++ (encBE4 w2 ++ c3Tail)) 17 =
        .ok ({}, 18) := rfl
    have ek : parseKv (encBE4 w1 ++ (encBE4 w2 ++ c3Tail)) 18 =
        .ok [] := rfl
    unfold try_from
    rw [if_neg (by omega)]
    rw [e0]
    simp only [Step.bind]
    rw [e4]
    simp only [Step.bind]
    rw [e8]
    simp only [Step.bind]
    rw [eb]
    simp only [Step.bind]
    rw [et]
    simp only [Step.bind]
    rw [ek]

/-- Witness for C3 at the words 0 (flag clear) and 2 ^ 31 + 5 with 7. -/
theorem c3_len_word_round_trip_witness :
    parseLenWord (encBE4 0 ++ []) 0 =
      .ok (if 2 ^ 31 ≤ 0 then some (0 % 2 ^ 31) else none) ∧
    try_from (encBE4 (2 ^ 31 + 5) ++ (encBE4 7 ++ c3Tail)) .clientToServer =
      .ok { req_len :=
              if 2 ^ 31 ≤ 2 ^ 31 + 5 then some ((2 ^ 31 + 5) % 2 ^ 31)
              else none,
            resp_len := if 2 ^ 31 ≤ 7 then some (7 % 2 ^ 31) else none } :=
  ⟨c3_len_word_round_trip.1 0 [] (by omega),
   c3_len_word_round_trip.2 (2 ^ 31 + 5) 7 (by omega) (by omega)⟩

/-- C9 counterexample: the claim that numeric conversion round-trips
for every TapType value fails at the Max sentinel, whose numeric code
256 is rejected by the from-numeric conversion. -/
theorem c9_round_trip_fails_at_max :
    u16OfTapType TapType.max = 256 ∧ tapTypeOfU16 256 = none := by
  decide

/-- C9 amended: the symbol-to-numeric-and-back round trip holds for
every TapType value that the from-numeric conversion can produce; for
every accepted numeric input the numeric-and-back round trip is exact;
numeric input 256 and above is rejected; and the Max sentinel is never
produced by the from-numeric conversion. -/
theorem c9_amended_round_trip :
    (∀ v : TapType, (∃ t, tapTypeOfU16 t = some v) →
       tapTypeOfU16 (u16OfTapType v) = some v) ∧
    (∀ t v, tapTypeOfU16 t = some v → u16OfTapType v = t) ∧
    (∀ t, 256 ≤ t → tapTypeOfU16 t = none) ∧
    (∀ t v, tapTypeOfU16 t = some v → v ≠ TapType.max) := by
  refine ⟨?_, ?_, ?_, ?_⟩
  · rintro v ⟨t, ht⟩
    unfold tapTypeOfU16 at ht ⊢
    split_ifs at ht with hz hth hlt
    · simp only [Option.some.injEq] at ht; subst ht; simp [u16OfTapType]
    · simp only [Option.some.injEq] at ht; subst ht; simp [u16OfTapType]
    · simp only [Option.some.injEq] at ht; subst ht
      simp only [u16OfTapType]
      rw [if_neg hz, if_neg hth, if_pos hlt]
  · intro t v ht
    unfold tapTypeOfU16 at ht
    split_ifs at ht with hz hth hlt
    · simp only [Option.some.injEq] at ht; subst ht
      simp [u16OfTapType, hz]
    · simp only [Option.some.injEq] at ht; subst ht
      simp [u16OfTapType, hth]
    · simp only [Option.some.injEq] at ht; subst ht
      simp [u16OfTapType]
  · intro t h
    unfold tapTypeOfU16
    split_ifs <;> first | rfl | omega
  · intro t v ht
    unfold tapTypeOfU16 at ht
    split_ifs at ht
    · simp only [Option.some.injEq] at ht; subst ht; decide
    · simp only [Option.some.injEq] at ht; subst ht; decide
    · simp only [Option.some.injEq] at ht; subst ht; simp

/-- Witness for C9 amended, instantiating each conjunct at concrete
values. -/
theorem c9_amended_round_trip_witness :
    tapTypeOfU16 (u16OfTapType TapType.tor) = some TapType.tor ∧
    u16OfTapType TapType.any = 0 ∧
    tapTypeOfU16 300 = none ∧
    TapType.any ≠ TapType.max :=
  ⟨c9_amended_round_trip.1 TapType.tor ⟨3, by decide⟩,
   c9_amended_round_trip.2.1 0 TapType.any (by decide),
   c9_amended_round_trip.2.2.1 300 (by omega),
   c9_amended_round_trip.2.2.2 0 TapType.any (by decide)⟩

end Deepflow
